import Mathlib

/-!
Shallow embedding of the `ReputationSystem` contract of the Nexus platform
(`contracts/ReputationSystem.sol`): reputation aggregation, voting power,
governance proposal lifecycle, DAO staking, and scoring-weight configuration.

Solidity storage mappings are modelled as association lists read through a
first-match lookup; a `require` failure reverts the transaction, so every
operation returns the untouched pre-state together with the error.
External collaborators (`ProfileRegistry`, `UtilityPayment`) are modelled as a
read-only environment `Env`; their mutating endpoints invoked from
`_executeProposal` are outside this contract's storage and are not modelled.
-/

namespace Nexus

abbrev Address := Nat

inductive ProposalType where
  | ProfileApproval
  | ProfileSuspension
  | AdminAddition
  | AdminRemoval
  | DAOAddition
  | DAORemoval
  | ParameterUpdate
deriving DecidableEq, Repr

inductive ProposalStatus where
  | Active
  | Executed
  | Rejected
  | Expired
deriving DecidableEq, Repr

structure PaymentHistory where
  totalPayments : Nat
  onTimePayments : Nat
  overduePayments : Nat
  totalRewardsEarned : Nat
  lastPaymentDate : Nat
deriving DecidableEq, Repr

structure ReputationMetrics where
  profileScore : Nat
  paymentScore : Nat
  communityScore : Nat
  totalScore : Nat
  lastUpdated : Nat
  level : Nat
deriving DecidableEq, Repr

structure Proposal where
  id : Nat
  proposalType : ProposalType
  proposer : Address
  targetAddress : Address
  description : String
  metadata : String
  votesFor : Nat
  votesAgainst : Nat
  startTime : Nat
  endTime : Nat
  status : ProposalStatus
  executed : Bool
  hasVoted : List (Address × Bool)
  votingPower : List (Address × Nat)
deriving DecidableEq, Repr

/-- First-match lookup in an association list with `Nat` keys, mirroring a
Solidity mapping read. -/
def lookupK {β : Type} : List (Nat × β) → Nat → Option β
  | [], _ => none
  | (k, v) :: m, a => if a = k then some v else lookupK m a

/-- Mapping read with the Solidity zero-value default. -/
def getA {β : Type} (m : List (Nat × β)) (d : β) (k : Nat) : β :=
  (lookupK m k).getD d

/-- Mapping write: the new binding shadows any previous one. -/
def setA {β : Type} (m : List (Nat × β)) (k : Nat) (v : β) : List (Nat × β) :=
  (k, v) :: m

structure ContractState where
  proposalIds : Nat
  proposals : List (Nat × Proposal)
  reputationMetrics : List (Address × ReputationMetrics)
  daos : List (Address × Bool)
  admins : List (Address × Bool)
  daoStakes : List (Address × Nat)
  profileWeight : Nat
  paymentWeight : Nat
  communityWeight : Nat
  owner : Address
deriving DecidableEq, Repr

/-- Read-only view of the external collaborators. -/
structure Env where
  isVerified : Address → Bool
  profileReputationScore : Address → Nat
  paymentHistory : Address → PaymentHistory

inductive ContractError where
  | ProposalDoesNotExist
  | UserNotVerified
  | InsufficientReputation
  | EmptyDescription
  | ProposalNotActive
  | VotingPeriodEnded
  | AlreadyVoted
  | NoVotingPower
  | VotingPeriodNotEnded
  | AlreadyExecuted
  | QuorumNotMet
  | NotDAO
  | AmountZero
  | InsufficientPayment
  | InsufficientStake
  | NotOwner
  | WeightsMustSumTo100
deriving DecidableEq, Repr

def VOTING_DURATION : Nat := 7 * 24 * 60 * 60

def MIN_PROPOSAL_THRESHOLD : Nat := 1000

def QUORUM_THRESHOLD : Nat := 30

def APPROVAL_THRESHOLD : Nat := 60

def reputationLevels : List Nat := [100, 200, 350, 500, 700, 900, 1200, 1500, 2000, 2500]

def emptyProposal : Proposal :=
  { id := 0, proposalType := .ProfileApproval, proposer := 0, targetAddress := 0,
    description := "", metadata := "", votesFor := 0, votesAgainst := 0,
    startTime := 0, endTime := 0, status := .Active, executed := false,
    hasVoted := [], votingPower := [] }

def emptyMetrics : ReputationMetrics :=
  { profileScore := 0, paymentScore := 0, communityScore := 0,
    totalScore := 0, lastUpdated := 0, level := 0 }

def getProposal (s : ContractState) (pid : Nat) : Proposal :=
  getA s.proposals emptyProposal pid

def getMetrics (s : ContractState) (a : Address) : ReputationMetrics :=
  getA s.reputationMetrics emptyMetrics a

def isDAO (s : ContractState) (a : Address) : Bool :=
  getA s.daos false a

def daoStakeOf (s : ContractState) (a : Address) : Nat :=
  getA s.daoStakes 0 a

/-- `proposalExists` modifier: `_proposalId > 0 && _proposalId <= _proposalIds.current()`. -/
def proposalInRange (s : ContractState) (pid : Nat) : Prop :=
  0 < pid ∧ pid ≤ s.proposalIds

instance (s : ContractState) (pid : Nat) : Decidable (proposalInRange s pid) :=
  inferInstanceAs (Decidable (_ ∧ _))

/-- `calculateVotingPower`: reputation `totalScore`, plus the DAO stake bonus
for addresses currently flagged as DAOs. -/
def calculateVotingPower (s : ContractState) (user : Address) : Nat :=
  let metrics := getMetrics s user
  let basePower := metrics.totalScore
  if isDAO s user then basePower + daoStakeOf s user else basePower

/-- The `getTotalStake` loop body: each iteration over a historical proposal id
adds the constant 1000. -/
def totalStakeLoop : Nat → Nat
  | 0 => 0
  | n + 1 => totalStakeLoop n + 1000

def getTotalStake (s : ContractState) : Nat :=
  totalStakeLoop s.proposalIds

/-- `_calculatePaymentScore`, translated statement by statement. -/
def _calculatePaymentScore (ph : PaymentHistory) : Nat :=
  if ph.totalPayments = 0 then 0
  else
    let onTimeRate := ph.onTimePayments * 100 / ph.totalPayments
    let baseScore := ph.totalPayments * 10
    if 90 ≤ onTimeRate then baseScore * 2
    else if 80 ≤ onTimeRate then baseScore * 150 / 100
    else if 70 ≤ onTimeRate then baseScore * 120 / 100
    else baseScore

/-- First loop of `_calculateCommunityScore`: 50 points per authored proposal,
iterating over ids `1..n`. -/
def authoredLoop (s : ContractState) (user : Address) : Nat → Nat
  | 0 => 0
  | n + 1 =>
    authoredLoop s user n + (if (getProposal s (n + 1)).proposer = user then 50 else 0)

/-- Second loop of `_calculateCommunityScore`: 10 points per proposal voted on. -/
def votedLoop (s : ContractState) (user : Address) : Nat → Nat
  | 0 => 0
  | n + 1 =>
    votedLoop s user n + (if getA (getProposal s (n + 1)).hasVoted false user then 10 else 0)

def _calculateCommunityScore (s : ContractState) (user : Address) : Nat :=
  authoredLoop s user s.proposalIds + votedLoop s user s.proposalIds

/-- The `for` loop of `_calculateReputationLevel`: first ladder index whose
threshold exceeds the score, else the maximum level 10. -/
def levelLoop (tot : Nat) : List Nat → Nat → Nat
  | [], _ => 10
  | t :: rest, i => if tot < t then i + 1 else levelLoop tot rest (i + 1)

def _calculateReputationLevel (tot : Nat) : Nat :=
  levelLoop tot reputationLevels 0

/-- The fresh proposal record written by `createProposal`: all tallies and
voter records zeroed, `status = Active`, `executed = false`. -/
def freshProposal (sender : Address) (now : Nat) (ptype : ProposalType)
    (target : Address) (descr meta : String) (newId : Nat) : Proposal :=
  { id := newId, proposalType := ptype, proposer := sender, targetAddress := target,
    description := descr, metadata := meta, votesFor := 0, votesAgainst := 0,
    startTime := now, endTime := now + VOTING_DURATION, status := .Active,
    executed := false, hasVoted := [], votingPower := [] }

/-- A proposal after one cast vote of the given frozen weight. -/
def castVote (p : Proposal) (sender : Address) (power : Nat) (support : Bool) : Proposal :=
  { p with
    hasVoted := setA p.hasVoted sender true,
    votingPower := setA p.votingPower sender power,
    votesFor := if support then p.votesFor + power else p.votesFor,
    votesAgainst := if support then p.votesAgainst else p.votesAgainst + power }

/-- A proposal as stored by the approved branch of `executeProposal`. -/
def markExecuted (p : Proposal) : Proposal :=
  { p with status := .Executed, executed := true }

/-- A proposal as stored by the rejected branch of `executeProposal`. -/
def markRejected (p : Proposal) : Proposal :=
  { p with status := .Rejected }

/-- The state with one proposal slot overwritten. -/
def withProposal (s : ContractState) (pid : Nat) (p : Proposal) : ContractState :=
  { s with proposals := setA s.proposals pid p }

/-- The state after allocating the next proposal id for a new proposal. -/
def addProposal (s : ContractState) (p : Proposal) : ContractState :=
  { s with
    proposalIds := s.proposalIds + 1,
    proposals := setA s.proposals (s.proposalIds + 1) p }

/-- `createProposal`: modifiers `onlyVerifiedUser`, then the reputation and
description requires, then allocation of the next id. -/
def createProposal (env : Env) (sender : Address) (now : Nat) (ptype : ProposalType)
    (target : Address) (descr meta : String) (s : ContractState) :
    Option ContractError × ContractState :=
  if ¬ env.isVerified sender then (some .UserNotVerified, s)
  else if (getMetrics s sender).totalScore < MIN_PROPOSAL_THRESHOLD then
    (some .InsufficientReputation, s)
  else if descr.length = 0 then (some .EmptyDescription, s)
  else
    (none, addProposal s
      (freshProposal sender now ptype target descr meta (s.proposalIds + 1)))

/-- `vote`: modifiers `proposalExists`, `onlyVerifiedUser`, then the body
requires, then the tally update with the voting power frozen at this instant. -/
def vote (env : Env) (sender : Address) (now : Nat) (pid : Nat) (support : Bool)
    (s : ContractState) : Option ContractError × ContractState :=
  if ¬ proposalInRange s pid then (some .ProposalDoesNotExist, s)
  else if ¬ env.isVerified sender then (some .UserNotVerified, s)
  else
    let p := getProposal s pid
    if p.status ≠ .Active then (some .ProposalNotActive, s)
    else if ¬ (now ≤ p.endTime) then (some .VotingPeriodEnded, s)
    else if getA p.hasVoted false sender then (some .AlreadyVoted, s)
    else
      let power := calculateVotingPower s sender
      if power = 0 then (some .NoVotingPower, s)
      else (none, withProposal s pid (castVote p sender power support))

/-- `_executeProposal`: role-set side effects inside this contract's storage;
the profile-registry calls live in the external collaborator and the
parameter-update variant dispatches nothing. -/
def execEffects (s : ContractState) (p : Proposal) : ContractState :=
  match p.proposalType with
  | .AdminAddition => { s with admins := setA s.admins p.targetAddress true }
  | .AdminRemoval => { s with admins := setA s.admins p.targetAddress false }
  | .DAOAddition => { s with daos := setA s.daos p.targetAddress true }
  | .DAORemoval => { s with daos := setA s.daos p.targetAddress false }
  | _ => s

/-- `executeProposal`: state checks, quorum `require`, then the strict
approval comparison deciding Executed versus Rejected. -/
def executeProposal (now : Nat) (pid : Nat) (s : ContractState) :
    Option ContractError × ContractState :=
  if ¬ proposalInRange s pid then (some .ProposalDoesNotExist, s)
  else
    let p := getProposal s pid
    if p.status ≠ .Active then (some .ProposalNotActive, s)
    else if ¬ (p.endTime < now) then (some .VotingPeriodNotEnded, s)
    else if p.executed then (some .AlreadyExecuted, s)
    else
      let totalVotes := p.votesFor + p.votesAgainst
      let totalStake := getTotalStake s
      if totalVotes < totalStake * QUORUM_THRESHOLD / 100 then (some .QuorumNotMet, s)
      else if totalVotes * APPROVAL_THRESHOLD / 100 < p.votesFor then
        (none, execEffects (withProposal s pid (markExecuted p)) (markExecuted p))
      else (none, withProposal s pid (markRejected p))

/-- The metrics record recomputed by `updateReputationMetrics`: profile score
from the registry, payment score from the payment ledger, community score from
the proposal history, weighted total and its level. -/
def recomputedMetrics (env : Env) (now : Nat) (user : Address) (s : ContractState) :
    ReputationMetrics :=
  let profScore := env.profileReputationScore user
  let payScore := _calculatePaymentScore (env.paymentHistory user)
  let commScore := _calculateCommunityScore s user
  let total := profScore * s.profileWeight / 100 + payScore * s.paymentWeight / 100 +
    commScore * s.communityWeight / 100
  { profileScore := profScore, paymentScore := payScore, communityScore := commScore,
    totalScore := total, level := _calculateReputationLevel total, lastUpdated := now }

/-- `updateReputationMetrics`: open to any caller, requires the target user to
be verified, recomputes all four scores and the level. -/
def updateReputationMetrics (env : Env) (now : Nat) (user : Address)
    (s : ContractState) : Option ContractError × ContractState :=
  if ¬ env.isVerified user then (some .UserNotVerified, s)
  else
    (none,
      { s with reputationMetrics := setA s.reputationMetrics user (recomputedMetrics env now user s) })

/-- `stakeAsDAO`: `onlyDAO`, positive amount, sufficient attached value. -/
def stakeAsDAO (sender : Address) (amount value : Nat) (s : ContractState) :
    Option ContractError × ContractState :=
  if ¬ isDAO s sender then (some .NotDAO, s)
  else if amount = 0 then (some .AmountZero, s)
  else if value < amount then (some .InsufficientPayment, s)
  else (none, { s with daoStakes := setA s.daoStakes sender (daoStakeOf s sender + amount) })

/-- `unstakeAsDAO`: `onlyDAO`, positive amount, sufficient recorded stake. -/
def unstakeAsDAO (sender : Address) (amount : Nat) (s : ContractState) :
    Option ContractError × ContractState :=
  if ¬ isDAO s sender then (some .NotDAO, s)
  else if amount = 0 then (some .AmountZero, s)
  else if daoStakeOf s sender < amount then (some .InsufficientStake, s)
  else (none, { s with daoStakes := setA s.daoStakes sender (daoStakeOf s sender - amount) })

/-- `updateScoringWeights`: `onlyOwner`, weights must sum to exactly 100. -/
def updateScoringWeights (sender : Address) (a b c : Nat) (s : ContractState) :
    Option ContractError × ContractState :=
  if sender ≠ s.owner then (some .NotOwner, s)
  else if a + b + c ≠ 100 then (some .WeightsMustSumTo100, s)
  else (none, { s with profileWeight := a, paymentWeight := b, communityWeight := c })

/-- One public transaction against the contract. -/
inductive Tx where
  | createTx (sender now : Nat) (ptype : ProposalType) (target : Address) (descr meta : String)
  | voteTx (sender now pid : Nat) (support : Bool)
  | executeTx (now pid : Nat)
  | updateMetricsTx (now : Nat) (user : Address)
  | stakeTx (sender amount value : Nat)
  | unstakeTx (sender amount : Nat)
  | updateWeightsTx (sender a b c : Nat)
deriving DecidableEq, Repr

def applyTx (env : Env) (s : ContractState) : Tx → Option ContractError × ContractState
  | .createTx sender now ptype target descr meta => createProposal env sender now ptype target descr meta s
  | .voteTx sender now pid support => vote env sender now pid support s
  | .executeTx now pid => executeProposal now pid s
  | .updateMetricsTx now user => updateReputationMetrics env now user s
  | .stakeTx sender amount value => stakeAsDAO sender amount value s
  | .unstakeTx sender amount => unstakeAsDAO sender amount s
  | .updateWeightsTx sender a b c => updateScoringWeights sender a b c s

/-- The state after a transaction: a reverted transaction leaves the pre-state. -/
def stepTx (env : Env) (s : ContractState) (t : Tx) : ContractState :=
  (applyTx env s t).2

def execTxs (env : Env) : ContractState → List Tx → ContractState
  | s, [] => s
  | s, t :: ts => execTxs env (stepTx env s t) ts

/-- Constructor: zero proposals, default 30/40/30 weights, deployer is
owner and initial admin. -/
def initialState (deployer : Address) : ContractState :=
  { proposalIds := 0, proposals := [], reputationMetrics := [], daos := [],
    admins := [(deployer, true)], daoStakes := [], profileWeight := 30,
    paymentWeight := 40, communityWeight := 30, owner := deployer }

inductive Reachable (env : Env) : ContractState → Prop where
  | init (deployer : Address) : Reachable env (initialState deployer)
  | step {s : ContractState} (t : Tx) : Reachable env s → Reachable env (stepTx env s t)

inductive ReachableFrom (env : Env) (s : ContractState) : ContractState → Prop where
  | refl : ReachableFrom env s s
  | step {s' : ContractState} (t : Tx) :
      ReachableFrom env s s' → ReachableFrom env s (stepTx env s' t)

/-- Transactions touching only the DAO stake ledger. -/
def isStakeTx : Tx → Bool
  | .stakeTx _ _ _ => true
  | .unstakeTx _ _ => true
  | _ => false

/-- Errors the specification's taxonomy classifies as `InvalidState`:
operations on a closed/terminal proposal, double votes, double executions,
and stake over-withdrawals. -/
def isInvalidStateError : ContractError → Bool
  | .ProposalNotActive => true
  | .VotingPeriodEnded => true
  | .AlreadyVoted => true
  | .VotingPeriodNotEnded => true
  | .AlreadyExecuted => true
  | .InsufficientStake => true
  | _ => false

/-- The payment score exactly as the specification words it: zero without
payments, otherwise `base = totalPayments * 10` scaled by the on-time-rate
tier, the rate comparisons taken as exact rational comparisons. -/
def paymentScoreSpec (ph : PaymentHistory) : Nat :=
  if ph.totalPayments = 0 then 0
  else
    let base := ph.totalPayments * 10
    if 90 * ph.totalPayments ≤ ph.onTimePayments * 100 then base * 2
    else if 80 * ph.totalPayments ≤ ph.onTimePayments * 100 then base * 150 / 100
    else if 70 * ph.totalPayments ≤ ph.onTimePayments * 100 then base * 120 / 100
    else base

/-- A perfect ten-of-ten payment history. -/
def perfectHistory : PaymentHistory :=
  { totalPayments := 10, onTimePayments := 10, overduePayments := 0,
    totalRewardsEarned := 0, lastPaymentDate := 0 }

/-- Environment where every address is verified, with a fixed profile score
and a perfect payment history. -/
def env0 : Env :=
  { isVerified := fun _ => true,
    profileReputationScore := fun _ => 4000,
    paymentHistory := fun _ => perfectHistory }

/-- A state with two historical proposals and one DAO member holding no stake. -/
def stakeState : ContractState :=
  { (initialState 0) with proposalIds := 2, daos := [(1, true)] }

/-- An active proposal with voting window ending at time 100. -/
def proposal100 : Proposal :=
  { (emptyProposal) with id := 1, endTime := 100 }

/-- A state holding one active proposal whose window ends at time 100. -/
def oneProposalState : ContractState :=
  { (initialState 0) with proposalIds := 1, proposals := [(1, proposal100)] }

/-- A non-empty proposal description for concrete scenarios. -/
def descrD : String := "d"

/-- Empty metadata for concrete scenarios. -/
def metaD : String := ""

/-- State reached from deployment by recomputing participant 1's reputation
and letting them create proposal 1 at time 0; nobody votes. -/
def c1State : ContractState :=
  stepTx env0 (stepTx env0 (initialState 0) (Tx.updateMetricsTx 0 1))
    (Tx.createTx 1 0 ProposalType.ParameterUpdate 0 descrD metaD)

/-- Structural invariant of reachable states: every stored proposal id is in
range, no stored proposal carries status `Expired`, and the `executed` flag
tracks status `Executed` exactly. -/
def GoodState (s : ContractState) : Prop :=
  ∀ pid p, lookupK s.proposals pid = some p →
    proposalInRange s pid ∧
    p.status ≠ ProposalStatus.Expired ∧
    (p.executed = true ↔ p.status = ProposalStatus.Executed)

/-- Voter `v` holds a cast-vote record of frozen weight `w` on proposal `pid`. -/
def VotedFrozen (s : ContractState) (pid : Nat) (v : Address) (w : Nat) : Prop :=
  proposalInRange s pid ∧
  getA (getProposal s pid).hasVoted false v = true ∧
  lookupK (getProposal s pid).votingPower v = some w

/-- Metrics with a bare positive total score. -/
def m500 : ReputationMetrics :=
  { (emptyMetrics) with totalScore := 500 }

/-- A state where participant 1 can vote on the single open proposal. -/
def votableState : ContractState :=
  { (oneProposalState) with reputationMetrics := [(1, m500)] }

/-- A closed proposal with an exact 200-200 tie of voting weight. -/
def tieProposal : Proposal :=
  { (emptyProposal) with id := 1, endTime := 100, votesFor := 200, votesAgainst := 200 }

/-- A state holding the tied proposal as its single proposal. -/
def tieState : ContractState :=
  { (initialState 0) with proposalIds := 1, proposals := [(1, tieProposal)] }

end Nexus

namespace Nexus

/-- Reading back the key just written returns the written value. -/
theorem lookupK_setA_self {β : Type} (m : List (Nat × β)) (k : Nat) (v : β) :
    lookupK (setA m k v) k = some v := by
  simp [lookupK, setA]

/-- A successful read from a just-written map is the written value or an
old binding. -/
theorem lookupK_setA_cases {β : Type} {m : List (Nat × β)} {k k' : Nat} {v w : β}
    (h : lookupK (setA m k v) k' = some w) :
    (k' = k ∧ w = v) ∨ lookupK m k' = some w := by
  by_cases hk : k' = k
  · subst hk
    rw [lookupK_setA_self] at h
    exact Or.inl ⟨rfl, (Option.some.inj h).symm⟩
  · rw [show lookupK (setA m k v) k' = lookupK m k' by simp [lookupK, setA, hk]] at h
    exact Or.inr h

/-- Writing one key leaves every other key's read unchanged. -/
theorem lookupK_setA_ne {β : Type} (m : List (Nat × β)) (k k' : Nat) (v : β)
    (h : k' ≠ k) : lookupK (setA m k v) k' = lookupK m k' := by
  simp [lookupK, setA, h]

/-- A state whose proposal map was just written at `pid` reads back the
written proposal. -/
theorem getProposal_eq_of_proposals {s' : ContractState} {ps : List (Nat × Proposal)}
    {pid : Nat} {p : Proposal} (h : s'.proposals = setA ps pid p) :
    getProposal s' pid = p := by
  simp [getProposal, getA, h, lookupK_setA_self]

/-- `getProposal` only depends on the proposal map. -/
theorem getProposal_congr {s₁ s₂ : ContractState} (h : s₁.proposals = s₂.proposals)
    (pid : Nat) : getProposal s₁ pid = getProposal s₂ pid := by
  simp [getProposal, getA, h]

/-- The role-set side effects of execution never touch the proposal map. -/
theorem execEffects_proposals (s : ContractState) (p : Proposal) :
    (execEffects s p).proposals = s.proposals := by
  unfold execEffects
  cases p.proposalType <;> rfl

/-- The role-set side effects of execution never touch the proposal counter. -/
theorem execEffects_proposalIds (s : ContractState) (p : Proposal) :
    (execEffects s p).proposalIds = s.proposalIds := by
  unfold execEffects
  cases p.proposalType <;> rfl

/-- C2: `getTotalStake` — the quorum base of `executeProposal` — is the
constant 1000 multiplied by the number of proposals ever created, and no
sequence of `stakeAsDAO`/`unstakeAsDAO` transactions can change it. -/
theorem getTotalStake_counts_proposals :
    (∀ s : ContractState, getTotalStake s = 1000 * s.proposalIds) ∧
    (∀ env s txs, (∀ t ∈ txs, isStakeTx t = true) →
      getTotalStake (execTxs env s txs) = getTotalStake s) := by
  have hloop : ∀ n, totalStakeLoop n = 1000 * n := by
    intro n
    induction n with
    | zero => rfl
    | succ n ih => simp [totalStakeLoop, ih, Nat.mul_succ]
  constructor
  · intro s
    exact hloop s.proposalIds
  · intro env s txs h
    induction txs generalizing s with
    | nil => rfl
    | cons t ts ih =>
      have ht : isStakeTx t = true := h t (List.mem_cons_self t ts)
      have hstep : (stepTx env s t).proposalIds = s.proposalIds := by
        cases t <;> simp only [isStakeTx, Bool.false_eq_true] at ht <;>
          simp only [stepTx, applyTx, stakeAsDAO, unstakeAsDAO] <;>
          (repeat' split) <;> rfl
      have hrest := ih (stepTx env s t) (fun t' ht' => h t' (List.mem_cons_of_mem t ht'))
      calc getTotalStake (execTxs env (stepTx env s t) ts)
          = getTotalStake (stepTx env s t) := hrest
        _ = getTotalStake s := by
            unfold getTotalStake
            rw [hstep]

/-- Witness for C2 at a concrete state and stake/unstake sequence. -/
theorem getTotalStake_counts_proposals_witness :
    getTotalStake (execTxs env0 stakeState [Tx.stakeTx 1 5 5, Tx.unstakeTx 1 2]) =
      getTotalStake stakeState :=
  getTotalStake_counts_proposals.2 env0 stakeState [Tx.stakeTx 1 5 5, Tx.unstakeTx 1 2]
    (by decide)

/-- C3: every transaction that ends in an error leaves the contract state
exactly as it was — atomicity of failed transitions. -/
theorem applyTx_atomic (env : Env) (s : ContractState) (t : Tx) (e : ContractError)
    (h : (applyTx env s t).1 = some e) : (applyTx env s t).2 = s := by
  cases t <;>
    simp only [applyTx, createProposal, vote, executeProposal, updateReputationMetrics,
      stakeAsDAO, unstakeAsDAO, updateScoringWeights] at h ⊢ <;>
    (repeat' split) <;> simp_all

/-- Witness for C3: a stake attempt by a non-DAO fails and preserves the state. -/
theorem applyTx_atomic_witness :
    (applyTx env0 (initialState 0) (Tx.stakeTx 5 3 3)).1 = some ContractError.NotDAO ∧
    (applyTx env0 (initialState 0) (Tx.stakeTx 5 3 3)).2 = initialState 0 :=
  ⟨by decide,
    applyTx_atomic env0 (initialState 0) (Tx.stakeTx 5 3 3) ContractError.NotDAO (by decide)⟩

/-- C6: the payment score of the code agrees with the specification's tiered
formula on every payment history, and the 10-of-10 on-time scenario scores
exactly 200. -/
theorem paymentScore_matches_spec :
    (∀ ph, _calculatePaymentScore ph = paymentScoreSpec ph) ∧
    _calculatePaymentScore
      { totalPayments := 10, onTimePayments := 10, overduePayments := 0,
        totalRewardsEarned := 0, lastPaymentDate := 0 } = 200 := by
  constructor
  · intro ph
    unfold _calculatePaymentScore paymentScoreSpec
    by_cases h0 : ph.totalPayments = 0
    · simp [h0]
    · have hpos : 0 < ph.totalPayments := Nat.pos_of_ne_zero h0
      have hiff : ∀ k : Nat, (k ≤ ph.onTimePayments * 100 / ph.totalPayments) ↔
          k * ph.totalPayments ≤ ph.onTimePayments * 100 := fun k =>
        Nat.le_div_iff_mul_le hpos
      simp only [if_neg h0]
      simp only [hiff 90, hiff 80, hiff 70]
  · decide

/-- C7: voting power is the stored total score plus the stake bonus for DAO
members, zero is attainable, and a zero-power voter is rejected by `vote`. -/
theorem calculateVotingPower_spec :
    (∀ s u, calculateVotingPower s u =
      (getMetrics s u).totalScore + (if isDAO s u then daoStakeOf s u else 0)) ∧
    (∃ s u, calculateVotingPower s u = 0) ∧
    (∀ env sender now pid support s,
      calculateVotingPower s sender = 0 →
      proposalInRange s pid →
      env.isVerified sender = true →
      (getProposal s pid).status = .Active →
      now ≤ (getProposal s pid).endTime →
      getA (getProposal s pid).hasVoted false sender = false →
      vote env sender now pid support s = (some .NoVotingPower, s)) := by
  refine ⟨?_, ⟨initialState 0, 0, by decide⟩, ?_⟩
  · intro s u
    unfold calculateVotingPower
    by_cases h : isDAO s u <;> simp [h]
  · intro env sender now pid support s hpow hpr hver hact hend hnv
    unfold vote
    rw [if_neg (not_not_intro hpr)]
    rw [if_neg (by simp [hver])]
    rw [if_neg (by simp [hact])]
    rw [if_neg (not_not_intro hend)]
    rw [if_neg (by simp [hnv])]
    rw [if_pos hpow]

/-- Witness for C7: a never-scored non-DAO voter has zero power and cannot
vote on an open proposal. -/
theorem calculateVotingPower_spec_witness :
    vote env0 5 50 1 true oneProposalState = (some .NoVotingPower, oneProposalState) :=
  calculateVotingPower_spec.2.2 env0 5 50 1 true oneProposalState
    (by decide) (by decide) (by decide) (by decide) (by decide) (by decide)

/-- C8: for an owner caller, `updateScoringWeights` succeeds exactly when the
weights sum to 100, storing them on success and changing nothing on failure. -/
theorem updateScoringWeights_sum_check (s : ContractState) (sender : Address) (a b c : Nat)
    (hown : sender = s.owner) :
    ((updateScoringWeights sender a b c s).1 = none ↔ a + b + c = 100) ∧
    (a + b + c = 100 →
      (updateScoringWeights sender a b c s).2.profileWeight = a ∧
      (updateScoringWeights sender a b c s).2.paymentWeight = b ∧
      (updateScoringWeights sender a b c s).2.communityWeight = c) ∧
    (a + b + c ≠ 100 →
      updateScoringWeights sender a b c s = (some .WeightsMustSumTo100, s)) := by
  subst hown
  unfold updateScoringWeights
  by_cases hsum : a + b + c = 100 <;> simp [hsum]

/-- Witness for C8: the deployer sets weights 20/30/50 successfully. -/
theorem updateScoringWeights_sum_check_witness :
    ((updateScoringWeights 0 20 30 50 (initialState 0)).1 = none ↔ 20 + 30 + 50 = 100) ∧
    (updateScoringWeights 0 20 30 50 (initialState 0)).2.profileWeight = 20 :=
  ⟨(updateScoringWeights_sum_check (initialState 0) 0 20 30 50 (by decide)).1,
    ((updateScoringWeights_sum_check (initialState 0) 0 20 30 50 (by decide)).2.1 (by decide)).1⟩

/-- C1 counterexample: in `c1State` proposal 1's window has ended and quorum
is not satisfied (0 votes against a bound of 300), yet `executeProposal`
reverts with `QuorumNotMet` and the proposal stays `Active` — it does not end
in status `Rejected` as the claim states. -/
theorem executeProposal_quorum_fail_not_rejected :
    (getProposal c1State 1).endTime < 604801 ∧
    (getProposal c1State 1).votesFor + (getProposal c1State 1).votesAgainst <
      getTotalStake c1State * QUORUM_THRESHOLD / 100 ∧
    (executeProposal 604801 1 c1State).1 = some ContractError.QuorumNotMet ∧
    (getProposal (executeProposal 604801 1 c1State).2 1).status = ProposalStatus.Active := by
  decide

/-- C1 amended: for an existing Active, not-yet-executed proposal whose window
has ended — if quorum fails the call reverts with `QuorumNotMet` and the
proposal stays `Active`; if quorum holds but `votesFor` is not strictly above
60% of the total (so an exact tie fails) it ends `Rejected`; only when quorum
and strict approval both hold does it end `Executed`; a tied tally never ends
`Executed`. -/
theorem executeProposal_outcome (now pid : Nat) (s : ContractState)
    (hpr : proposalInRange s pid)
    (hact : (getProposal s pid).status = .Active)
    (hend : (getProposal s pid).endTime < now)
    (hexec : (getProposal s pid).executed = false) :
    (¬ (getTotalStake s * QUORUM_THRESHOLD / 100 ≤
        (getProposal s pid).votesFor + (getProposal s pid).votesAgainst) →
      executeProposal now pid s = (some .QuorumNotMet, s) ∧
      (getProposal (executeProposal now pid s).2 pid).status = .Active) ∧
    (getTotalStake s * QUORUM_THRESHOLD / 100 ≤
        (getProposal s pid).votesFor + (getProposal s pid).votesAgainst →
      ¬ (((getProposal s pid).votesFor + (getProposal s pid).votesAgainst) *
          APPROVAL_THRESHOLD / 100 < (getProposal s pid).votesFor) →
      (executeProposal now pid s).1 = none ∧
      (getProposal (executeProposal now pid s).2 pid).status = .Rejected ∧
      (getProposal (executeProposal now pid s).2 pid).executed = false) ∧
    (getTotalStake s * QUORUM_THRESHOLD / 100 ≤
        (getProposal s pid).votesFor + (getProposal s pid).votesAgainst →
      ((getProposal s pid).votesFor + (getProposal s pid).votesAgainst) *
          APPROVAL_THRESHOLD / 100 < (getProposal s pid).votesFor →
      (executeProposal now pid s).1 = none ∧
      (getProposal (executeProposal now pid s).2 pid).status = .Executed ∧
      (getProposal (executeProposal now pid s).2 pid).executed = true) ∧
    ((getProposal s pid).votesFor = (getProposal s pid).votesAgainst →
      (getProposal (executeProposal now pid s).2 pid).status ≠ .Executed) := by
  have hrun : executeProposal now pid s =
      (if (getProposal s pid).votesFor + (getProposal s pid).votesAgainst <
            getTotalStake s * QUORUM_THRESHOLD / 100 then
        (some .QuorumNotMet, s)
      else if ((getProposal s pid).votesFor + (getProposal s pid).votesAgainst) *
            APPROVAL_THRESHOLD / 100 < (getProposal s pid).votesFor then
        (none, execEffects (withProposal s pid (markExecuted (getProposal s pid)))
          (markExecuted (getProposal s pid)))
      else (none, withProposal s pid (markRejected (getProposal s pid)))) := by
    unfold executeProposal
    rw [if_neg (not_not_intro hpr), if_neg (by simp [hact]), if_neg (not_not_intro hend),
      if_neg (by simp [hexec])]
  by_cases hq : (getProposal s pid).votesFor + (getProposal s pid).votesAgainst <
      getTotalStake s * QUORUM_THRESHOLD / 100
  · rw [if_pos hq] at hrun
    refine ⟨fun _ => ⟨hrun, ?_⟩, fun h _ => absurd h (by omega), fun h _ => absurd h (by omega),
      fun _ => ?_⟩
    · rw [hrun]
      exact hact
    · rw [hrun]
      simp [hact]
  · rw [if_neg hq] at hrun
    by_cases ha : ((getProposal s pid).votesFor + (getProposal s pid).votesAgainst) *
        APPROVAL_THRESHOLD / 100 < (getProposal s pid).votesFor
    · rw [if_pos ha] at hrun
      have hget : (getProposal (executeProposal now pid s).2 pid) =
          markExecuted (getProposal s pid) := by
        rw [hrun]
        rw [getProposal_congr (execEffects_proposals _ _) pid]
        exact getProposal_eq_of_proposals rfl
      have htie : (getProposal s pid).votesFor ≠ (getProposal s pid).votesAgainst := by
        intro heq
        have h100 : 0 < 100 := by omega
        have := (Nat.le_div_iff_mul_le (k := 100) h100).mpr
          (show (getProposal s pid).votesFor * 100 ≤
            ((getProposal s pid).votesFor + (getProposal s pid).votesAgainst) *
              APPROVAL_THRESHOLD by rw [← heq]; unfold APPROVAL_THRESHOLD; omega)
        omega
      refine ⟨fun h => absurd hq (by omega), fun _ h => absurd h (by simp [ha]),
        fun _ _ => ⟨by rw [hrun], by simp [hget, markExecuted], by simp [hget, markExecuted]⟩,
        fun h => absurd h htie⟩
    · rw [if_neg ha] at hrun
      have hget : (getProposal (executeProposal now pid s).2 pid) =
          markRejected (getProposal s pid) := by
        rw [hrun]
        exact getProposal_eq_of_proposals rfl
      refine ⟨fun h => absurd hq (by omega),
        fun _ _ => ⟨by rw [hrun], by simp [hget, markRejected], ?_⟩,
        fun _ h => absurd h ha, fun _ => by simp [hget, markRejected]⟩
      rw [hget]
      simpa [markRejected] using hexec


/-- Witness for C1 amended: the 200-200 tie meets quorum but not strict
approval, so execution succeeds with outcome `Rejected`. -/
theorem executeProposal_outcome_witness :
    (executeProposal 101 1 tieState).1 = none ∧
    (getProposal (executeProposal 101 1 tieState).2 1).status = ProposalStatus.Rejected :=
  ⟨((executeProposal_outcome 101 1 tieState (by decide) (by decide) (by decide)
      (by decide)).2.1 (by decide) (by decide)).1,
    ((executeProposal_outcome 101 1 tieState (by decide) (by decide) (by decide)
      (by decide)).2.1 (by decide) (by decide)).2.1⟩

/-- `getA` after a write at the same key. -/
theorem getA_setA_self {β : Type} (m : List (Nat × β)) (d : β) (k : Nat) (v : β) :
    getA (setA m k v) d k = v := by
  simp [getA, lookupK_setA_self]

/-- `getA` after a write at a different key. -/
theorem getA_setA_ne {β : Type} (m : List (Nat × β)) (d : β) (k k' : Nat) (v : β)
    (h : k' ≠ k) : getA (setA m k v) d k' = getA m d k' := by
  simp [getA, lookupK_setA_ne m k k' v h]

/-- Overwriting a slot reads back the written proposal. -/
theorem getProposal_withProposal_self (s : ContractState) (pid : Nat) (p : Proposal) :
    getProposal (withProposal s pid p) pid = p := by
  simp [getProposal, getA, withProposal, lookupK_setA_self]

/-- Overwriting one slot leaves other slots unchanged. -/
theorem getProposal_withProposal_ne (s : ContractState) (pid pid' : Nat) (p : Proposal)
    (h : pid' ≠ pid) : getProposal (withProposal s pid p) pid' = getProposal s pid' := by
  simp [getProposal, getA, withProposal, lookupK_setA_ne _ _ _ _ h]

/-- Allocating a fresh proposal leaves previously existing slots unchanged. -/
theorem getProposal_addProposal_ne (s : ContractState) (p : Proposal) (pid : Nat)
    (h : pid ≠ s.proposalIds + 1) :
    getProposal (addProposal s p) pid = getProposal s pid := by
  simp [getProposal, getA, addProposal, lookupK_setA_ne _ _ _ _ h]

theorem withProposal_proposalIds (s : ContractState) (pid : Nat) (p : Proposal) :
    (withProposal s pid p).proposalIds = s.proposalIds := rfl

/-- Range membership transfers along equal proposal counters. -/
theorem proposalInRange_of_ids {s s' : ContractState}
    (h : s'.proposalIds = s.proposalIds) {pid : Nat} (hr : proposalInRange s pid) :
    proposalInRange s' pid := by
  unfold proposalInRange at *
  omega

/-- `createProposal` either reverts or allocates the next id for a fresh
Active proposal. -/
theorem createProposal_result (env : Env) (sender now : Nat) (ptype : ProposalType)
    (target : Address) (descr meta : String) (s : ContractState) :
    (createProposal env sender now ptype target descr meta s).2 = s ∨
    (createProposal env sender now ptype target descr meta s).2 =
      addProposal s (freshProposal sender now ptype target descr meta (s.proposalIds + 1)) := by
  simp only [createProposal]
  split_ifs <;> simp

/-- `vote` either reverts or overwrites the voted proposal with `castVote`,
and then the proposal was in range, Active, and unvoted by the sender. -/
theorem vote_result (env : Env) (sender now pid : Nat) (support : Bool) (s : ContractState) :
    (vote env sender now pid support s).2 = s ∨
    (proposalInRange s pid ∧
      (getProposal s pid).status = ProposalStatus.Active ∧
      getA (getProposal s pid).hasVoted false sender = false ∧
      (vote env sender now pid support s).2 =
        withProposal s pid
          (castVote (getProposal s pid) sender (calculateVotingPower s sender) support)) := by
  simp only [vote]
  split_ifs <;> simp_all

/-- `executeProposal` either reverts or overwrites an in-range, Active,
not-yet-executed proposal with `markExecuted` (plus role side effects) or
`markRejected`. -/
theorem executeProposal_result (now pid : Nat) (s : ContractState) :
    (executeProposal now pid s).2 = s ∨
    (proposalInRange s pid ∧ (getProposal s pid).status = ProposalStatus.Active ∧
      (getProposal s pid).executed = false ∧
      ((executeProposal now pid s).2 =
          execEffects (withProposal s pid (markExecuted (getProposal s pid)))
            (markExecuted (getProposal s pid)) ∨
        (executeProposal now pid s).2 =
          withProposal s pid (markRejected (getProposal s pid)))) := by
  simp only [executeProposal]
  split_ifs <;> simp_all

/-- `updateReputationMetrics` never touches proposals or the counter. -/
theorem updateReputationMetrics_frame (env : Env) (now : Nat) (user : Address)
    (s : ContractState) :
    ((updateReputationMetrics env now user s).2).proposals = s.proposals ∧
    ((updateReputationMetrics env now user s).2).proposalIds = s.proposalIds := by
  unfold updateReputationMetrics
  split_ifs <;> exact ⟨rfl, rfl⟩

/-- `stakeAsDAO` never touches proposals or the counter. -/
theorem stakeAsDAO_frame (sender amount value : Nat) (s : ContractState) :
    ((stakeAsDAO sender amount value s).2).proposals = s.proposals ∧
    ((stakeAsDAO sender amount value s).2).proposalIds = s.proposalIds := by
  unfold stakeAsDAO
  split_ifs <;> exact ⟨rfl, rfl⟩

/-- `unstakeAsDAO` never touches proposals or the counter. -/
theorem unstakeAsDAO_frame (sender amount : Nat) (s : ContractState) :
    ((unstakeAsDAO sender amount s).2).proposals = s.proposals ∧
    ((unstakeAsDAO sender amount s).2).proposalIds = s.proposalIds := by
  unfold unstakeAsDAO
  split_ifs <;> exact ⟨rfl, rfl⟩

/-- `updateScoringWeights` never touches proposals or the counter. -/
theorem updateScoringWeights_frame (sender a b c : Nat) (s : ContractState) :
    ((updateScoringWeights sender a b c s).2).proposals = s.proposals ∧
    ((updateScoringWeights sender a b c s).2).proposalIds = s.proposalIds := by
  unfold updateScoringWeights
  split_ifs <;> exact ⟨rfl, rfl⟩

/-- In a good state the current-value read of any slot satisfies the
executed-status equivalence (the default slot value does trivially). -/
theorem goodState_executed_iff {s : ContractState} (hg : GoodState s) (pid : Nat) :
    ((getProposal s pid).executed = true ↔
      (getProposal s pid).status = ProposalStatus.Executed) := by
  unfold getProposal getA
  cases hlk : lookupK s.proposals pid with
  | none => simp [emptyProposal]
  | some q => simpa using (hg pid q hlk).2.2

/-- The invariant only reads proposals and the counter. -/
theorem goodState_of_frame {s s' : ContractState} (hp : s'.proposals = s.proposals)
    (hi : s'.proposalIds = s.proposalIds) (hg : GoodState s) : GoodState s' := by
  intro pid p h
  rw [hp] at h
  obtain ⟨hr, hne, hiff⟩ := hg pid p h
  exact ⟨proposalInRange_of_ids hi hr, hne, hiff⟩

theorem goodState_init (deployer : Address) : GoodState (initialState deployer) := by
  intro pid p hp
  simp [initialState, lookupK] at hp

/-- One transaction preserves the structural invariant. -/
theorem goodState_step (env : Env) (s : ContractState) (t : Tx) (hg : GoodState s) :
    GoodState (stepTx env s t) := by
  cases t with
  | createTx sender now ptype target descr meta =>
    show GoodState (createProposal env sender now ptype target descr meta s).2
    rcases createProposal_result env sender now ptype target descr meta s with h | h <;> rw [h]
    · exact hg
    · intro pid p hp
      rcases lookupK_setA_cases hp with ⟨hpe, hpv⟩ | hold
      · subst hpe
        subst hpv
        refine ⟨⟨by omega, ?_⟩, by simp [freshProposal], by simp [freshProposal]⟩
        show s.proposalIds + 1 ≤ (addProposal s _).proposalIds
        simp [addProposal]
      · obtain ⟨hr, hne, hiff⟩ := hg pid p hold
        refine ⟨⟨hr.1, ?_⟩, hne, hiff⟩
        have : pid ≤ s.proposalIds := hr.2
        show pid ≤ (addProposal s _).proposalIds
        simp [addProposal]
        omega
  | voteTx sender now pid₂ support =>
    show GoodState (vote env sender now pid₂ support s).2
    rcases vote_result env sender now pid₂ support s with h | ⟨hr, hact, hnv, h⟩ <;> rw [h]
    · exact hg
    · have hexec : (getProposal s pid₂).executed = false := by
        have hiff := goodState_executed_iff hg pid₂
        rw [hact] at hiff
        simpa using hiff
      intro pid p hp
      rcases lookupK_setA_cases hp with ⟨hpe, hpv⟩ | hold
      · subst hpe
        subst hpv
        exact ⟨proposalInRange_of_ids rfl hr, by simp [castVote, hact],
          by simp [castVote, hact, hexec]⟩
      · obtain ⟨hr', hne, hiff⟩ := hg pid p hold
        exact ⟨proposalInRange_of_ids rfl hr', hne, hiff⟩
  | executeTx now pid₂ =>
    show GoodState (executeProposal now pid₂ s).2
    rcases executeProposal_result now pid₂ s with h | ⟨hr, hact, hexec, hcase⟩
    · rw [h]
      exact hg
    · rcases hcase with h | h <;> rw [h]
      · intro pid p hp
        rw [execEffects_proposals] at hp
        have hids : (execEffects (withProposal s pid₂ (markExecuted (getProposal s pid₂)))
            (markExecuted (getProposal s pid₂))).proposalIds = s.proposalIds := by
          rw [execEffects_proposalIds]
          rfl
        rcases lookupK_setA_cases hp with ⟨hpe, hpv⟩ | hold
        · subst hpe
          subst hpv
          exact ⟨proposalInRange_of_ids hids hr, by simp [markExecuted],
            by simp [markExecuted]⟩
        · obtain ⟨hr', hne, hiff⟩ := hg pid p hold
          exact ⟨proposalInRange_of_ids hids hr', hne, hiff⟩
      · intro pid p hp
        rcases lookupK_setA_cases hp with ⟨hpe, hpv⟩ | hold
        · subst hpe
          subst hpv
          exact ⟨proposalInRange_of_ids rfl hr, by simp [markRejected],
            by simp [markRejected, hexec]⟩
        · obtain ⟨hr', hne, hiff⟩ := hg pid p hold
          exact ⟨proposalInRange_of_ids rfl hr', hne, hiff⟩
  | updateMetricsTx now user =>
    exact goodState_of_frame (updateReputationMetrics_frame env now user s).1
      (updateReputationMetrics_frame env now user s).2 hg
  | stakeTx sender amount value =>
    exact goodState_of_frame (stakeAsDAO_frame sender amount value s).1
      (stakeAsDAO_frame sender amount value s).2 hg
  | unstakeTx sender amount =>
    exact goodState_of_frame (unstakeAsDAO_frame sender amount s).1
      (unstakeAsDAO_frame sender amount s).2 hg
  | updateWeightsTx sender a b c =>
    exact goodState_of_frame (updateScoringWeights_frame sender a b c s).1
      (updateScoringWeights_frame sender a b c s).2 hg

/-- Every reachable state satisfies the structural invariant. -/
theorem reachable_goodState (env : Env) (s : ContractState) (h : Reachable env s) :
    GoodState s := by
  induction h with
  | init deployer => exact goodState_init deployer
  | step t _ ih => exact goodState_step env _ t ih

/-- C9: in every reachable state every stored proposal's status is Active,
Executed, or Rejected — the `Expired` status is never assigned — and a
proposal whose window has closed stays stored as Active while `vote` treats
it as closed through the now-versus-endTime check. -/
theorem no_expired_status (env : Env) (s : ContractState) (h : Reachable env s)
    (pid : Nat) (p : Proposal) (hp : lookupK s.proposals pid = some p) :
    p.status ≠ ProposalStatus.Expired ∧
    (p.status = ProposalStatus.Active ∨ p.status = ProposalStatus.Executed ∨
      p.status = ProposalStatus.Rejected) ∧
    (∀ v now support, env.isVerified v = true → p.status = ProposalStatus.Active →
      p.endTime < now →
      vote env v now pid support s = (some ContractError.VotingPeriodEnded, s)) := by
  obtain ⟨hr, hne, hiff⟩ := reachable_goodState env s h pid p hp
  have hgp : getProposal s pid = p := by
    unfold getProposal getA
    rw [hp]
    rfl
  refine ⟨hne, ?_, ?_⟩
  · cases hst : p.status with
    | Active => exact Or.inl rfl
    | Executed => exact Or.inr (Or.inl rfl)
    | Rejected => exact Or.inr (Or.inr rfl)
    | Expired => exact absurd hst hne
  · intro v now support hver hact hend
    simp only [vote]
    rw [if_neg (not_not_intro hr), if_neg (by simp [hver]), if_neg (by simp [hgp, hact]),
      if_pos (show ¬ (now ≤ (getProposal s pid).endTime) by rw [hgp]; omega)]

/-- Witness for C9 at a concrete reachable state with one open proposal. -/
theorem no_expired_status_witness :
    (getProposal c1State 1).status ≠ ProposalStatus.Expired :=
  (no_expired_status env0 c1State
    (Reachable.step (Tx.createTx 1 0 ProposalType.ParameterUpdate 0 descrD metaD)
      (Reachable.step (Tx.updateMetricsTx 0 1) (Reachable.init 0)))
    1 (getProposal c1State 1) (by decide)).1

/-- C10: in every reachable state a stored proposal's `executed` flag is true
exactly when its status is `Executed`. -/
theorem executed_iff_status (env : Env) (s : ContractState) (h : Reachable env s)
    (pid : Nat) (p : Proposal) (hp : lookupK s.proposals pid = some p) :
    (p.executed = true ↔ p.status = ProposalStatus.Executed) :=
  (reachable_goodState env s h pid p hp).2.2

/-- Witness for C10 at the same concrete reachable state. -/
theorem executed_iff_status_witness :
    ((getProposal c1State 1).executed = true ↔
      (getProposal c1State 1).status = ProposalStatus.Executed) :=
  executed_iff_status env0 c1State
    (Reachable.step (Tx.createTx 1 0 ProposalType.ParameterUpdate 0 descrD metaD)
      (Reachable.step (Tx.updateMetricsTx 0 1) (Reachable.init 0)))
    1 (getProposal c1State 1) (by decide)

/-- Inversion of a successful vote: every guard held and the post-state is the
single-slot overwrite by `castVote` with the weight frozen at this instant. -/
theorem vote_success_inv (env : Env) (sender now pid : Nat) (support : Bool)
    (s s₁ : ContractState) (h : vote env sender now pid support s = (none, s₁)) :
    proposalInRange s pid ∧ env.isVerified sender = true ∧
    (getProposal s pid).status = ProposalStatus.Active ∧
    now ≤ (getProposal s pid).endTime ∧
    getA (getProposal s pid).hasVoted false sender = false ∧
    calculateVotingPower s sender ≠ 0 ∧
    s₁ = withProposal s pid
      (castVote (getProposal s pid) sender (calculateVotingPower s sender) support) := by
  by_cases h1 : proposalInRange s pid
  case neg => simp [vote, h1] at h
  by_cases h2 : env.isVerified sender = true
  case neg => simp [vote, h1, h2] at h
  by_cases h3 : (getProposal s pid).status = ProposalStatus.Active
  case neg => simp [vote, h1, h2, h3] at h
  by_cases h4 : now ≤ (getProposal s pid).endTime
  case neg => simp [vote, h1, h2, h3, h4] at h
  by_cases h5 : getA (getProposal s pid).hasVoted false sender = true
  case pos => simp [vote, h1, h2, h3, h4, h5] at h
  by_cases h6 : calculateVotingPower s sender = 0
  case pos => simp [vote, h1, h2, h3, h4, h5, h6] at h
  refine ⟨h1, h2, h3, h4, by simpa using h5, h6, ?_⟩
  have hs : (vote env sender now pid support s).2 = s₁ := by rw [h]
  rw [← hs]
  simp [vote, h1, h2, h3, h4, h5, h6]

/-- The voter-record predicate only reads proposals and the counter. -/
theorem votedFrozen_of_frame {s s' : ContractState} {pid : Nat} {v : Address} {w : Nat}
    (hp : s'.proposals = s.proposals) (hi : s'.proposalIds = s.proposalIds)
    (hv : VotedFrozen s pid v w) : VotedFrozen s' pid v w := by
  obtain ⟨hr, hvoted, hpow⟩ := hv
  have hg : getProposal s' pid = getProposal s pid := getProposal_congr hp pid
  exact ⟨proposalInRange_of_ids hi hr, by rw [hg]; exact hvoted, by rw [hg]; exact hpow⟩

/-- One transaction preserves a cast-vote record and its frozen weight. -/
theorem votedFrozen_step (env : Env) (s : ContractState) (t : Tx) (pid : Nat)
    (v : Address) (w : Nat) (hv : VotedFrozen s pid v w) :
    VotedFrozen (stepTx env s t) pid v w := by
  obtain ⟨hr, hvoted, hpow⟩ := hv
  cases t with
  | createTx sender now ptype target descr meta =>
    show VotedFrozen (createProposal env sender now ptype target descr meta s).2 pid v w
    rcases createProposal_result env sender now ptype target descr meta s with h | h <;> rw [h]
    · exact ⟨hr, hvoted, hpow⟩
    · have hne : pid ≠ s.proposalIds + 1 := by
        have h2 := hr.2
        omega
      have hg := getProposal_addProposal_ne s
        (freshProposal sender now ptype target descr meta (s.proposalIds + 1)) pid hne
      refine ⟨?_, by rw [hg]; exact hvoted, by rw [hg]; exact hpow⟩
      obtain ⟨hp1, hp2⟩ := hr
      refine ⟨hp1, ?_⟩
      show pid ≤ s.proposalIds + 1
      omega
  | voteTx sender now pid₂ support =>
    show VotedFrozen (vote env sender now pid₂ support s).2 pid v w
    rcases vote_result env sender now pid₂ support s with h | ⟨hr₂, hact, hnv, h⟩ <;> rw [h]
    · exact ⟨hr, hvoted, hpow⟩
    · by_cases hpp : pid = pid₂
      · subst hpp
        have hsv : sender ≠ v := by
          intro he
          rw [he] at hnv
          rw [hnv] at hvoted
          exact Bool.noConfusion hvoted
        have hg := getProposal_withProposal_self s pid
          (castVote (getProposal s pid) sender (calculateVotingPower s sender) support)
        refine ⟨proposalInRange_of_ids rfl hr, ?_, ?_⟩
        · rw [hg]
          show getA (setA (getProposal s pid).hasVoted sender true) false v = true
          rw [getA_setA_ne _ _ _ _ _ (Ne.symm hsv)]
          exact hvoted
        · rw [hg]
          show lookupK (setA (getProposal s pid).votingPower sender
            (calculateVotingPower s sender)) v = some w
          rw [lookupK_setA_ne _ _ _ _ (Ne.symm hsv)]
          exact hpow
      · have hg := getProposal_withProposal_ne s pid₂ pid
          (castVote (getProposal s pid₂) sender (calculateVotingPower s sender) support) hpp
        exact ⟨proposalInRange_of_ids rfl hr, by rw [hg]; exact hvoted, by rw [hg]; exact hpow⟩
  | executeTx now pid₂ =>
    show VotedFrozen (executeProposal now pid₂ s).2 pid v w
    rcases executeProposal_result now pid₂ s with h | ⟨hr₂, hact, hexec, hcase⟩
    · rw [h]
      exact ⟨hr, hvoted, hpow⟩
    · rcases hcase with h | h <;> rw [h]
      · have hpropsEq := execEffects_proposals
          (withProposal s pid₂ (markExecuted (getProposal s pid₂)))
          (markExecuted (getProposal s pid₂))
        have hids : (execEffects (withProposal s pid₂ (markExecuted (getProposal s pid₂)))
            (markExecuted (getProposal s pid₂))).proposalIds = s.proposalIds := by
          rw [execEffects_proposalIds]
          rfl
        have hgcongr := getProposal_congr hpropsEq pid
        by_cases hpp : pid = pid₂
        · subst hpp
          have hg2 := getProposal_withProposal_self s pid (markExecuted (getProposal s pid))
          refine ⟨proposalInRange_of_ids hids hr, ?_, ?_⟩
          · rw [hgcongr, hg2]
            exact hvoted
          · rw [hgcongr, hg2]
            exact hpow
        · have hg2 := getProposal_withProposal_ne s pid₂ pid
            (markExecuted (getProposal s pid₂)) hpp
          exact ⟨proposalInRange_of_ids hids hr, by rw [hgcongr, hg2]; exact hvoted,
            by rw [hgcongr, hg2]; exact hpow⟩
      · by_cases hpp : pid = pid₂
        · subst hpp
          have hg2 := getProposal_withProposal_self s pid (markRejected (getProposal s pid))
          exact ⟨proposalInRange_of_ids rfl hr, by rw [hg2]; exact hvoted,
            by rw [hg2]; exact hpow⟩
        · have hg2 := getProposal_withProposal_ne s pid₂ pid
            (markRejected (getProposal s pid₂)) hpp
          exact ⟨proposalInRange_of_ids rfl hr, by rw [hg2]; exact hvoted,
            by rw [hg2]; exact hpow⟩
  | updateMetricsTx now user =>
    exact votedFrozen_of_frame (updateReputationMetrics_frame env now user s).1
      (updateReputationMetrics_frame env now user s).2 ⟨hr, hvoted, hpow⟩
  | stakeTx sender amount value =>
    exact votedFrozen_of_frame (stakeAsDAO_frame sender amount value s).1
      (stakeAsDAO_frame sender amount value s).2 ⟨hr, hvoted, hpow⟩
  | unstakeTx sender amount =>
    exact votedFrozen_of_frame (unstakeAsDAO_frame sender amount s).1
      (unstakeAsDAO_frame sender amount s).2 ⟨hr, hvoted, hpow⟩
  | updateWeightsTx sender a b c =>
    exact votedFrozen_of_frame (updateScoringWeights_frame sender a b c s).1
      (updateScoringWeights_frame sender a b c s).2 ⟨hr, hvoted, hpow⟩

/-- A cast-vote record persists into every subsequently reachable state. -/
theorem votedFrozen_reachableFrom (env : Env) {s s' : ContractState}
    (h : ReachableFrom env s s') (pid : Nat) (v : Address) (w : Nat)
    (hv : VotedFrozen s pid v w) : VotedFrozen s' pid v w := by
  induction h with
  | refl => exact hv
  | step t _ ih => exact votedFrozen_step env _ t pid v w ih

/-- C5: after a successful vote by `v` on proposal `pid`, any later vote by
`v` on `pid` — with either support value, in any subsequently reachable
state — fails with an invalid-state error and leaves the state untouched. -/
theorem no_revote (env : Env) (v : Address) (now pid : Nat) (support : Bool)
    (s s₁ : ContractState) (hfirst : vote env v now pid support s = (none, s₁))
    (s₂ : ContractState) (hreach : ReachableFrom env s₁ s₂)
    (now₂ : Nat) (support₂ : Bool) :
    ∃ e, vote env v now₂ pid support₂ s₂ = (some e, s₂) ∧ isInvalidStateError e = true := by
  obtain ⟨hr, hver, hact, hend, hnv, hpw, hs₁⟩ :=
    vote_success_inv env v now pid support s s₁ hfirst
  have hvf₁ : VotedFrozen s₁ pid v (calculateVotingPower s v) := by
    subst hs₁
    refine ⟨proposalInRange_of_ids rfl hr, ?_, ?_⟩
    · rw [getProposal_withProposal_self]
      show getA (setA (getProposal s pid).hasVoted v true) false v = true
      rw [getA_setA_self]
    · rw [getProposal_withProposal_self]
      show lookupK (setA (getProposal s pid).votingPower v (calculateVotingPower s v)) v =
        some (calculateVotingPower s v)
      rw [lookupK_setA_self]
  obtain ⟨hr₂, hvoted₂, hpow₂⟩ := votedFrozen_reachableFrom env hreach pid v _ hvf₁
  by_cases hact₂ : (getProposal s₂ pid).status = ProposalStatus.Active
  · by_cases hend₂ : now₂ ≤ (getProposal s₂ pid).endTime
    · refine ⟨ContractError.AlreadyVoted, ?_, rfl⟩
      simp [vote, hr₂, hver, hact₂, hend₂, hvoted₂]
    · refine ⟨ContractError.VotingPeriodEnded, ?_, rfl⟩
      simp [vote, hr₂, hver, hact₂, hend₂]
  · refine ⟨ContractError.ProposalNotActive, ?_, rfl⟩
    simp [vote, hr₂, hver, hact₂]

/-- Witness for C5: participant 1 votes on the open proposal and an immediate
revote with flipped support fails as a double vote. -/
theorem no_revote_witness :
    ∃ e, vote env0 1 60 1 false (vote env0 1 50 1 true votableState).2 =
      (some e, (vote env0 1 50 1 true votableState).2) ∧ isInvalidStateError e = true :=
  no_revote env0 1 50 1 true votableState (vote env0 1 50 1 true votableState).2
    (by decide) (vote env0 1 50 1 true votableState).2 ReachableFrom.refl 60 false

/-- C4: recomputing any participant's reputation metrics never touches the
proposal map — tallies and frozen records included; a successful vote adds
exactly `calculateVotingPower` of the caller at that instant to the tally,
and the caller's frozen record still reads back that cast-time weight in
every subsequently reachable state. -/
theorem frozen_weight (env : Env) :
    (∀ now user s, ((updateReputationMetrics env now user s).2).proposals = s.proposals) ∧
    (∀ sender now pid support s s₁,
      vote env sender now pid support s = (none, s₁) →
      (getProposal s₁ pid).votesFor + (getProposal s₁ pid).votesAgainst =
        (getProposal s pid).votesFor + (getProposal s pid).votesAgainst +
          calculateVotingPower s sender) ∧
    (∀ sender now pid support s s₁ s₂,
      vote env sender now pid support s = (none, s₁) →
      ReachableFrom env s₁ s₂ →
      getA (getProposal s₂ pid).hasVoted false sender = true ∧
      lookupK (getProposal s₂ pid).votingPower sender =
        some (calculateVotingPower s sender)) := by
  refine ⟨fun now user s => (updateReputationMetrics_frame env now user s).1, ?_, ?_⟩
  · intro sender now pid support s s₁ h
    obtain ⟨hr, hver, hact, hend, hnv, hpw, hs₁⟩ :=
      vote_success_inv env sender now pid support s s₁ h
    subst hs₁
    rw [getProposal_withProposal_self]
    cases support <;> simp [castVote] <;> omega
  · intro sender now pid support s s₁ s₂ h hreach
    obtain ⟨hr, hver, hact, hend, hnv, hpw, hs₁⟩ :=
      vote_success_inv env sender now pid support s s₁ h
    have hvf₁ : VotedFrozen s₁ pid sender (calculateVotingPower s sender) := by
      subst hs₁
      refine ⟨proposalInRange_of_ids rfl hr, ?_, ?_⟩
      · rw [getProposal_withProposal_self]
        show getA (setA (getProposal s pid).hasVoted sender true) false sender = true
        rw [getA_setA_self]
      · rw [getProposal_withProposal_self]
        show lookupK (setA (getProposal s pid).votingPower sender
          (calculateVotingPower s sender)) sender = some (calculateVotingPower s sender)
        rw [lookupK_setA_self]
    obtain ⟨hr₂, hvoted₂, hpow₂⟩ := votedFrozen_reachableFrom env hreach pid sender _ hvf₁
    exact ⟨hvoted₂, hpow₂⟩

/-- Witness for C4: after participant 1's vote, their frozen record reads back
their cast-time voting power. -/
theorem frozen_weight_witness :
    getA (getProposal (vote env0 1 50 1 true votableState).2 1).hasVoted false 1 = true ∧
    lookupK (getProposal (vote env0 1 50 1 true votableState).2 1).votingPower 1 =
      some (calculateVotingPower votableState 1) :=
  (frozen_weight env0).2.2 1 50 1 true votableState (vote env0 1 50 1 true votableState).2
    (vote env0 1 50 1 true votableState).2 (by decide) ReachableFrom.refl

end Nexus
